import Mathlib

/-!
Shallow embedding of the `pathsearch` sources (`src/filename_filter.rs`,
`src/file_filter.rs`, `src/main.rs`) and proofs about the embedded
definitions.  Filenames are modelled as lists of bytes (`List Nat`), as the
filters operate on `&[u8]`.  Fallible Rust code (panics) is modelled with
`Option`: `none` stands for a panic.
-/

namespace Pathsearch

/-- `MatchRange` from `filename_filter.rs`: either no highlight sub-range or a
half-open byte range. -/
inductive MatchRange where
  | None : MatchRange
  | Range : Nat → Nat → MatchRange
deriving DecidableEq

/-- `FilterResult` from `filename_filter.rs`. -/
inductive FilterResult where
  | Matched : MatchRange → FilterResult
  | NoMatch : FilterResult
deriving DecidableEq

/-- `MatchAllFilter` (a unit struct). -/
structure MatchAllFilter where

/-- `MatchAllFilter::filter`: always `Matched(MatchRange::None)`. -/
def MatchAllFilter.filter (_self : MatchAllFilter) (_filename : List Nat) : FilterResult :=
  FilterResult.Matched MatchRange.None

/-- `Iterator::position` of the Rust standard library: index of the first
element satisfying the predicate. -/
def position {α : Type} (pred : α → Bool) : List α → Option Nat
  | [] => Option.none
  | x :: xs => if pred x then some 0 else (position pred xs).map (· + 1)

/-- `slice::windows` of the Rust standard library for window size `k ≥ 1`:
all contiguous sub-slices of length `k` (empty when `k` exceeds the length).
Rust panics when `k = 0`; that case is guarded at the call site. -/
def windowsList (l : List Nat) (k : Nat) : List (List Nat) :=
  (List.range (l.length + 1 - k)).map (fun i => (l.drop i).take k)

/-- `SubstringFilter` from `filename_filter.rs`. -/
structure SubstringFilter where
  pattern : List Nat

/-- `SubstringFilter::filter`: `filename.windows(pattern.len()).position(|w| w == pattern)`.
`windows(0)` panics in Rust, so an empty pattern yields `none` (a panic). -/
def SubstringFilter.filter (self : SubstringFilter) (filename : List Nat) :
    Option FilterResult :=
  if self.pattern.length = 0 then Option.none
  else
    some (match position (fun w => w == self.pattern) (windowsList filename self.pattern.length) with
      | some start => FilterResult.Matched (MatchRange.Range start (start + self.pattern.length))
      | Option.none => FilterResult.NoMatch)

/-- `p` occurs in `f` as a contiguous byte run starting at byte offset `s`. -/
def occursAt (p f : List Nat) (s : Nat) : Prop :=
  s + p.length ≤ f.length ∧ (f.drop s).take p.length = p

instance (p f : List Nat) (s : Nat) : Decidable (occursAt p f s) := by
  unfold occursAt; infer_instance

/- ### Helper lemmas about `position` and `windowsList` -/

theorem position_eq_none_iff {α : Type} (pred : α → Bool) (l : List α) :
    position pred l = Option.none ↔ ∀ j, (h : j < l.length) → pred (l.get ⟨j, h⟩) = false := by
  induction l with
  | nil => simp [position]
  | cons x xs ih =>
    by_cases hx : pred x
    · simp only [position, hx, if_pos rfl]
      constructor
      · intro h; cases h
      · intro h
        have h0 := h 0 (by simp)
        simp [List.get] at h0
        rw [hx] at h0; cases h0
    · simp only [position, hx, if_neg Bool.false_ne_true]
      rw [Option.map_eq_none']
      rw [ih]
      constructor
      · intro h j hj
        cases j with
        | zero => simpa using Bool.eq_false_iff.mpr hx
        | succ j => exact h j (by simpa using hj)
      · intro h j hj
        exact h (j + 1) (by simpa using hj)

theorem position_eq_some_iff {α : Type} (pred : α → Bool) (l : List α) (i : Nat) :
    position pred l = some i ↔
      ∃ h : i < l.length, pred (l.get ⟨i, h⟩) = true ∧
        ∀ j, (hj : j < i) → pred (l.get ⟨j, Nat.lt_trans hj h⟩) = false := by
  induction l generalizing i with
  | nil => simp [position]
  | cons x xs ih =>
    by_cases hx : pred x
    · simp only [position, hx, if_pos rfl]
      constructor
      · intro h
        cases h
        refine ⟨by simp, by simpa using hx, ?_⟩
        intro j hj; cases hj
      · rintro ⟨hi, hpi, hmin⟩
        cases i with
        | zero => rfl
        | succ i =>
          have := hmin 0 (Nat.succ_pos i)
          simp [List.get] at this
          rw [hx] at this; cases this
    · simp only [position, hx, if_neg Bool.false_ne_true]
      constructor
      · intro h
        rcases Option.map_eq_some.mp h with ⟨i0, hi0, hadd⟩
        subst hadd
        rcases (ih i0).mp hi0 with ⟨hlt, hp, hmin⟩
        refine ⟨by simpa using Nat.succ_lt_succ hlt, by simpa using hp, ?_⟩
        intro j hj
        cases j with
        | zero => simpa using Bool.eq_false_iff.mpr hx
        | succ j => simpa using hmin j (Nat.lt_of_succ_lt_succ hj)
      · rintro ⟨hi, hpi, hmin⟩
        cases i with
        | zero =>
          simp [List.get] at hpi
          rw [hpi] at hx; cases hx rfl
        | succ i =>
          have hi' : i < xs.length := Nat.lt_of_succ_lt_succ hi
          have : position pred xs = some i := by
            refine (ih i).mpr ⟨hi', by simpa using hpi, ?_⟩
            intro j hj
            simpa using hmin (j + 1) (Nat.succ_lt_succ hj)
          rw [this, Option.map_some']

theorem windowsList_length (l : List Nat) (k : Nat) :
    (windowsList l k).length = l.length + 1 - k := by
  simp [windowsList]

theorem windowsList_get (l : List Nat) (k i : Nat) (h : i < (windowsList l k).length) :
    (windowsList l k).get ⟨i, h⟩ = (l.drop i).take k := by
  simp [windowsList]

theorem occursAt_iff_window (p f : List Nat) (s : Nat) (hp : p ≠ []) :
    occursAt p f s ↔
      s < f.length + 1 - p.length ∧ (f.drop s).take p.length = p := by
  have hk : 0 < p.length := List.length_pos.mpr hp
  constructor
  · rintro ⟨hle, heq⟩
    exact ⟨by omega, heq⟩
  · rintro ⟨hlt, heq⟩
    exact ⟨by omega, heq⟩

theorem SubstringFilter.filter_eq_matched_iff (p f : List Nat) (hp : p ≠ []) (s e : Nat) :
    SubstringFilter.filter ⟨p⟩ f = some (FilterResult.Matched (MatchRange.Range s e)) ↔
      e = s + p.length ∧ occursAt p f s ∧ ∀ t, occursAt p f t → s ≤ t := by
  have hk : ¬ p.length = 0 := fun h => hp (List.length_eq_zero.mp h)
  unfold SubstringFilter.filter
  rw [if_neg hk]
  constructor
  · intro h
    cases hpos : position (fun w => w == p) (windowsList f p.length) with
    | none => rw [hpos] at h; cases h
    | some st =>
      rw [hpos] at h
      obtain ⟨hs, he⟩ : st = s ∧ st + p.length = e := by
        injection h with h1
        injection h1 with h2
        cases h2; exact ⟨rfl, rfl⟩
      subst hs; subst he
      rcases (position_eq_some_iff _ _ _).mp hpos with ⟨hlt, hpred, hmin⟩
      rw [windowsList_get] at hpred
      have hwin : (f.drop st).take p.length = p := by
        exact beq_iff_eq.mp hpred
      have hs_lt : st < f.length + 1 - p.length := by
        rw [windowsList_length] at hlt; exact hlt
      refine ⟨rfl, (occursAt_iff_window p f st hp).mpr ⟨hs_lt, hwin⟩, ?_⟩
      intro t ht
      by_contra hts
      push_neg at hts
      rcases (occursAt_iff_window p f t hp).mp ht with ⟨ht_lt, ht_win⟩
      have ht_lt' : t < (windowsList f p.length).length := by
        rw [windowsList_length]; exact ht_lt
      have := hmin t hts
      rw [windowsList_get] at this
      exact absurd ht_win (by simpa using this)
  · rintro ⟨rfl, hocc, hmin⟩
    rcases (occursAt_iff_window p f s hp).mp hocc with ⟨hs_lt, hwin⟩
    have hs_lt' : s < (windowsList f p.length).length := by
      rw [windowsList_length]; exact hs_lt
    have hpos : position (fun w => w == p) (windowsList f p.length) = some s := by
      refine (position_eq_some_iff _ _ _).mpr ⟨hs_lt', ?_, ?_⟩
      · rw [windowsList_get]; exact beq_iff_eq.mpr hwin
      · intro j hj
        rw [windowsList_get]
        refine beq_eq_false_iff_ne.mpr ?_
        intro hje
        have : occursAt p f j := (occursAt_iff_window p f j hp).mpr
          ⟨by rw [windowsList_length] at hs_lt'; omega, hje⟩
        exact absurd (hmin j this) (by omega)
    rw [hpos]

theorem SubstringFilter.filter_eq_noMatch_iff (p f : List Nat) (hp : p ≠ []) :
    SubstringFilter.filter ⟨p⟩ f = some FilterResult.NoMatch ↔ ∀ t, ¬ occursAt p f t := by
  have hk : ¬ p.length = 0 := fun h => hp (List.length_eq_zero.mp h)
  unfold SubstringFilter.filter
  rw [if_neg hk]
  constructor
  · intro h t ht
    cases hpos : position (fun w => w == p) (windowsList f p.length) with
    | some st => rw [hpos] at h; cases h
    | none =>
      rcases (occursAt_iff_window p f t hp).mp ht with ⟨ht_lt, ht_win⟩
      have ht_lt' : t < (windowsList f p.length).length := by
        rw [windowsList_length]; exact ht_lt
      have := (position_eq_none_iff _ _).mp hpos t ht_lt'
      rw [windowsList_get] at this
      exact absurd ht_win (by simpa using this)
  · intro h
    have hpos : position (fun w => w == p) (windowsList f p.length) = Option.none := by
      refine (position_eq_none_iff _ _).mpr ?_
      intro j hj
      rw [windowsList_get]
      refine beq_eq_false_iff_ne.mpr ?_
      intro hje
      refine h j ((occursAt_iff_window p f j hp).mpr ⟨?_, hje⟩)
      rw [windowsList_length] at hj; exact hj
    rw [hpos]

/-- The byte-oriented regex engine (`regex::bytes::Regex`), an external
collaborator, modelled by its documented contract: `Matches name s e` is the
engine's match relation for the compiled pattern, and `find` returns the
leftmost match (or nothing when the pattern matches nowhere), with offsets
that are valid byte positions in the haystack. -/
structure ByteRegex where
  Matches : List Nat → Nat → Nat → Prop
  find : List Nat → Option (Nat × Nat)
  find_sound : ∀ name s e, find name = some (s, e) → Matches name s e
  find_valid : ∀ name s e, find name = some (s, e) → s ≤ e ∧ e ≤ name.length
  find_leftmost : ∀ name s e, find name = some (s, e) → ∀ t u, Matches name t u → s ≤ t
  find_complete : ∀ name, find name = Option.none → ∀ t u, ¬ Matches name t u

/-- `RegexFilter` from `filename_filter.rs`, holding a compiled regex. -/
structure RegexFilter where
  regex : ByteRegex

/-- `RegexFilter::filter`: `regex.find(filename)` mapped onto `FilterResult`. -/
def RegexFilter.filter (self : RegexFilter) (filename : List Nat) : FilterResult :=
  match self.regex.find filename with
  | some (s, e) => FilterResult.Matched (MatchRange.Range s e)
  | Option.none => FilterResult.NoMatch

/-- The closed set of filter variants that produce a `FilterResult`
(`MatchAllFilter`, `SubstringFilter`, `RegexFilter`); the result is `none`
when the variant panics on the given input. -/
inductive FilterKind where
  | matchAll : MatchAllFilter → FilterKind
  | substring : SubstringFilter → FilterKind
  | regex : RegexFilter → FilterKind

/-- Run one filter variant on a filename. -/
def FilterKind.run : FilterKind → List Nat → Option FilterResult
  | .matchAll m, name => some (m.filter name)
  | .substring sf, name => sf.filter name
  | .regex rf, name => some (rf.filter name)

/- ### `file_filter.rs`: ExecutableFilter -/

/-- POSIX metadata as seen through `metadata.permissions().mode()`: the full
`st_mode` word (file-type bits in the high octal digits, permission bits in
the low three). -/
structure Metadata where
  mode : Nat
deriving DecidableEq

/-- `ExecutableFilter::filter` from `file_filter.rs`: fetching the metadata is
fallible and the code calls `.expect(...)`, so a metadata error is a panic
(`none`); otherwise the result is `mode & 0o111 != 0`. -/
def ExecutableFilter.filter (metadata : Except String Metadata) : Option Bool :=
  match metadata with
  | .error _ => Option.none
  | .ok md => some (md.mode &&& 0o111 != 0)

/-- Modelled from the spec: `is_runnable(permission_bits, is_regular_file,
is_symlink)` is true iff an execute bit is set and the entry is a regular file
or a symlink. -/
def specIsRunnable (perm : Nat) (isRegularFile isSymlink : Bool) : Bool :=
  (perm &&& 0o111 != 0) && (isRegularFile || isSymlink)

/-- Build a full `st_mode` word from permission bits and file-type flags
(regular file, symlink, otherwise directory). -/
def stModeOf (perm : Nat) (isRegularFile isSymlink : Bool) : Nat :=
  (if isRegularFile then 0o100000 else if isSymlink then 0o120000 else 0o040000) ||| perm

/- Spec §8 examples for the executable check. -/
example : ExecutableFilter.filter (.ok ⟨stModeOf 0o755 true false⟩) = some true := by decide
example : ExecutableFilter.filter (.ok ⟨stModeOf 0o644 true false⟩) = some false := by decide
example : ExecutableFilter.filter (.ok ⟨stModeOf 0o777 false true⟩) = some true := by decide
example : ExecutableFilter.filter (.ok ⟨stModeOf 0o600 false true⟩) = some false := by decide

/- ### `main.rs`: FormattedOutput (the result renderer) -/

/-- ANSI prefix for the directory portion (`ESC[2m`, empty when color is off). -/
def dirAnsi (color : Bool) : List Nat := if color then [27, 91, 50, 109] else []

/-- ANSI prefix for the matched range (`ESC[1;31m`, empty when color is off). -/
def matchAnsi (color : Bool) : List Nat := if color then [27, 91, 49, 59, 51, 49, 109] else []

/-- ANSI reset (`ESC[0m`, empty when color is off). -/
def resetAnsi (color : Bool) : List Nat := if color then [27, 91, 48, 109] else []

/-- Bytes written before the filename: `dir_ansi ++ dir ++ MAIN_SEPARATOR ++ reset_ansi`. -/
def lineHead (color : Bool) (dir : List Nat) : List Nat :=
  dirAnsi color ++ dir ++ [47] ++ resetAnsi color

/-- Bytes written after the filename: the defensive reset and the newline. -/
def lineEnd (color : Bool) : List Nat := resetAnsi color ++ [10]

/-- `FormattedOutput::print` from `main.rs`, as the byte sequence written to
the output.  Rust byte-slice indexing `&filename[..start]`, `[start..end]`,
`[end..]` panics unless `start ≤ end ≤ len`, so an out-of-bounds range yields
`none`. -/
def FormattedOutput.print (color : Bool) (dir file : List Nat) (range : MatchRange) :
    Option (List Nat) :=
  match range with
  | MatchRange.None => some (lineHead color dir ++ file ++ lineEnd color)
  | MatchRange.Range s e =>
    if s ≤ e ∧ e ≤ file.length then
      some (lineHead color dir ++
        (file.take s ++ matchAnsi color ++ (file.drop s).take (e - s) ++ resetAnsi color ++
          file.drop e) ++ lineEnd color)
    else Option.none

/-- A `MatchRange` whose offsets fit the filename (`Span` offsets in bounds). -/
def validRange : MatchRange → List Nat → Prop
  | MatchRange.None, _ => True
  | MatchRange.Range s e, file => s ≤ e ∧ e ≤ file.length

theorem take_slice_drop (f : List Nat) (s e : Nat) (hse : s ≤ e) (_hef : e ≤ f.length) :
    f.take s ++ (f.drop s).take (e - s) ++ f.drop e = f := by
  have h1 : (f.drop s).take (e - s) = (f.take e).drop s := by
    rw [List.drop_take]
  have h2 : f.take s = (f.take e).take s := by
    rw [List.take_take, Nat.min_eq_left hse]
  rw [h1, h2, List.take_append_drop]
  exact List.take_append_drop e f

/- Renderer sanity checks mirroring the Rust unit tests (`/usr/bin` + `ls`,
`/usr/bin` + `grep` with range 0..2, color on and off). -/
example : FormattedOutput.print false [47, 117] [108, 115] MatchRange.None =
    some [47, 117, 47, 108, 115, 10] := by decide
example : FormattedOutput.print false [47, 117] [103, 114, 101, 112] (MatchRange.Range 0 4) =
    some [47, 117, 47, 103, 114, 101, 112, 10] := by decide
example : FormattedOutput.print true [47, 117] [103, 114] (MatchRange.Range 0 2) =
    some ([27, 91, 50, 109] ++ [47, 117] ++ [47] ++ [27, 91, 48, 109] ++
      [27, 91, 49, 59, 51, 49, 109] ++ [103, 114] ++ [27, 91, 48, 109] ++
      [27, 91, 48, 109] ++ [10]) := by decide

/- ### `main.rs`: argument parsing, PATH splitting, the scan, and `main` -/

/-- `ColorOption` from `main.rs`. -/
inductive ColorOption where
  | Auto : ColorOption
  | Always : ColorOption
  | Never : ColorOption
deriving DecidableEq

/-- `Args` from `main.rs`. -/
structure Args where
  pattern : Option String
  regex : Bool
  color : ColorOption
deriving DecidableEq

/-- Outcome of `Args::parse_manual`, including the two early `process::exit(0)`
paths for `--help` and `--version`. -/
inductive ParseOutcome where
  | ok : Args → ParseOutcome
  | err : String → ParseOutcome
  | helpExit : ParseOutcome
  | versionExit : ParseOutcome
deriving DecidableEq

/-- `parse_color_option` from `main.rs`. -/
def parseColorOption (s : String) : Except String ColorOption :=
  if s = "auto" then .ok ColorOption.Auto
  else if s = "always" then .ok ColorOption.Always
  else if s = "never" then .ok ColorOption.Never
  else .error ("Invalid color option \x27" ++ s ++ "\x27. Use \x27auto\x27, \x27always\x27, or \x27never\x27")

/-- `str::starts_with` of the Rust standard library, on the character level. -/
def strStartsWith (s pre : String) : Bool := pre.toList.isPrefixOf s.toList

/-- `&s["--color=".len()..]` of `main.rs`: the argument past its 8-character
ASCII prefix (byte slicing and character dropping agree on an ASCII prefix). -/
def strDropPrefix8 (s : String) : String := String.mk (s.toList.drop 8)

/-- The argument loop of `Args::parse_manual`, carrying the accumulated
pattern, regex flag and color option. -/
def parseManualLoop : List String → Option String → Bool → ColorOption → ParseOutcome
  | [], pat, rx, col => .ok ⟨pat, rx, col⟩
  | arg :: rest, pat, rx, col =>
    if arg = "-r" || arg = "--regex" then parseManualLoop rest pat true col
    else if arg = "-h" || arg = "--help" then .helpExit
    else if arg = "-V" || arg = "--version" then .versionExit
    else if arg = "--color" then
      match rest with
      | [] => .err "--color requires a value (auto, always, never)"
      | v :: rest2 =>
        match parseColorOption v with
        | .ok c2 => parseManualLoop rest2 pat rx c2
        | .error e => .err e
    else if strStartsWith arg "--color=" then
      match parseColorOption (strDropPrefix8 arg) with
      | .ok c2 => parseManualLoop rest pat rx c2
      | .error e => .err e
    else if strStartsWith arg "-" then .err ("Unknown option: " ++ arg)
    else
      match pat with
      | some _ => .err "Multiple patterns provided"
      | Option.none => parseManualLoop rest (some arg) rx col

/-- `env::split_paths` on POSIX: split the character sequence at each `:`
(`n` separators yield `n + 1` pieces, empty pieces preserved). -/
def splitOnColon : List Char → List (List Char)
  | [] => [[]]
  | c :: rest =>
    if c = ':' then [] :: splitOnColon rest
    else
      match splitOnColon rest with
      | [] => [[c]]
      | g :: gs => (c :: g) :: gs

/-- The PATH variable parsed into the ordered directory list. -/
def splitPaths (s : String) : List String :=
  (splitOnColon s.toList).map (fun cs => String.mk cs)

theorem splitOnColon_ne_nil (l : List Char) : splitOnColon l ≠ [] := by
  cases l with
  | nil => simp [splitOnColon]
  | cons c rest =>
    unfold splitOnColon
    by_cases hc : c = ':'
    · simp [hc]
    · simp only [hc, if_neg hc]
      cases splitOnColon rest <;> simp

theorem splitPaths_ne_nil (s : String) : splitPaths s ≠ [] := by
  unfold splitPaths
  intro h
  exact splitOnColon_ne_nil s.toList (List.map_eq_nil_iff.mp h)

/-- One directory entry as yielded by `fs::read_dir`'s iterator: an I/O error
(its message) or a filename (its byte sequence). -/
abbrev DirEntryResult := Except String (List Nat)

/-- A match record at the moment `FormattedOutput::print` is called: the
directory string, the raw filename bytes, and the match range. -/
structure MatchedEntry where
  dir : String
  file : List Nat
  range : MatchRange
deriving DecidableEq

/-- The diagnostic `main` writes to stderr when a directory entry cannot be
read: `Failed to get directory entry in '{dir}': {err}`. -/
def entryDiag (dir err : String) : String :=
  "Failed to get directory entry in \x27" ++ dir ++ "\x27: " ++ err

/-- The inner loop of `main` over one directory's entries: an `Err` entry
produces a diagnostic and is skipped, an `Ok` entry goes through the filename
filter and is emitted when it matches.  Returns (matches, diagnostics). -/
def scanEntries (flt : List Nat → FilterResult) (dir : String) :
    List DirEntryResult → List MatchedEntry × List String
  | [] => ([], [])
  | .error e :: rest =>
    let r := scanEntries flt dir rest
    (r.1, entryDiag dir e :: r.2)
  | .ok name :: rest =>
    let r := scanEntries flt dir rest
    match flt name with
    | FilterResult.Matched mr => (⟨dir, name, mr⟩ :: r.1, r.2)
    | FilterResult.NoMatch => r

/-- The outer loop of `main` over the directory list: a directory whose
listing failed (`none`) is skipped silently, otherwise its entries are
scanned. -/
def scanDirs (flt : List Nat → FilterResult) :
    List (String × Option (List DirEntryResult)) → List MatchedEntry × List String
  | [] => ([], [])
  | (_, Option.none) :: rest => scanDirs flt rest
  | (dir, some entries) :: rest =>
    let r1 := scanEntries flt dir entries
    let r2 := scanDirs flt rest
    (r1.1 ++ r2.1, r1.2 ++ r2.2)

/-- The per-entry outcome of the scan of one directory, as a `filterMap`
step: errors yield nothing, matched names yield a `MatchedEntry`. -/
def entryMatch (flt : List Nat → FilterResult) (dir : String) :
    DirEntryResult → Option MatchedEntry
  | .error _ => Option.none
  | .ok name =>
    match flt name with
    | FilterResult.Matched mr => some ⟨dir, name, mr⟩
    | FilterResult.NoMatch => Option.none

/-- Byte view of a pattern string.  Code points stand in for UTF-8 bytes;
the exit-code paths below depend only on emptiness, which is preserved. -/
def strBytes (s : String) : List Nat := s.toList.map Char.toNat

/-- `SubstringFilter::filter` seen through the total trait signature; the
default branch is unreachable whenever the pattern is non-empty. -/
def substringTotal (p : List Nat) (name : List Nat) : FilterResult :=
  (SubstringFilter.filter ⟨p⟩ name).getD FilterResult.NoMatch

theorem substringTotal_faithful (p name : List Nat) (hp : p ≠ []) :
    SubstringFilter.filter ⟨p⟩ name = some (substringTotal p name) := by
  have hk : ¬ p.length = 0 := fun h => hp (List.length_eq_zero.mp h)
  unfold substringTotal SubstringFilter.filter
  rw [if_neg hk]
  rfl

/-- `main` from `main.rs` as a function of the argument vector, the `PATH`
variable, the regex compiler (`Regex::new`, an external collaborator, whose
error carries the engine diagnostic), and the filesystem (directory path to
listing, `none` when `read_dir` fails).  The result is `none` when the run
panics, otherwise `some (exit code, emitted matches, stderr lines)`. -/
def mainModel (argv : List String) (pathVar : String)
    (compile : String → Except String ByteRegex)
    (fs : String → Option (List DirEntryResult)) :
    Option (Nat × List MatchedEntry × List String) :=
  match parseManualLoop argv Option.none false ColorOption.Auto with
  | .err e => some (1, [], ["Error: " ++ e, ""])
  | .helpExit => some (0, [], [])
  | .versionExit => some (0, [], [])
  | .ok args =>
    let dirs := splitPaths pathVar
    if dirs.isEmpty then some (1, [], ["No directories in PATH"])
    else
      match args.pattern, args.regex with
      | Option.none, _ =>
        let r := scanDirs (MatchAllFilter.filter {}) (dirs.map (fun d => (d, fs d)))
        some (0, r.1, r.2)
      | some p, true =>
        match compile p with
        | .error err =>
          some (1, [], ["Invalid regex pattern \x27" ++ p ++ "\x27: " ++ err])
        | .ok re =>
          let r := scanDirs (RegexFilter.filter ⟨re⟩) (dirs.map (fun d => (d, fs d)))
          some (0, r.1, r.2)
      | some p, false =>
        if p = "" then Option.none
        else
          let r := scanDirs (substringTotal (strBytes p)) (dirs.map (fun d => (d, fs d)))
          some (0, r.1, r.2)

/-- Setup failure as the code defines it: the manual argument parser rejects
the command line, or regex mode is selected (pattern present and `-r` given)
and the pattern does not compile. -/
def setupFails (argv : List String) (compile : String → Except String ByteRegex) : Prop :=
  match parseManualLoop argv Option.none false ColorOption.Auto with
  | .err _ => True
  | .ok args => ∃ p msg, args.pattern = some p ∧ args.regex = true ∧ compile p = .error msg
  | _ => False

/-- Modelled from the spec: the claim enumerates the setup failures as "no
directories resolved from the directory-list variable, or an invalid regex
pattern, or conflicting mode flags".  The code defines no second mode flag
(there is no fuzzy flag), so the conflicting-flags condition is `False`. -/
def claimedSetupFailure (argv : List String) (pathVar : String)
    (compile : String → Except String ByteRegex) : Prop :=
  splitPaths pathVar = [] ∨
  (match parseManualLoop argv Option.none false ColorOption.Auto with
   | .ok args => ∃ p msg, args.pattern = some p ∧ args.regex = true ∧ compile p = .error msg
   | _ => False) ∨
  False

/- Quick sanity checks mirroring the Rust unit tests. -/
example : SubstringFilter.filter ⟨[97, 98, 99]⟩ [100, 101, 102] = some FilterResult.NoMatch := by
  decide
example : SubstringFilter.filter ⟨[97, 98, 99]⟩ [120, 121, 122, 97, 98, 99, 49, 50, 51] =
    some (FilterResult.Matched (MatchRange.Range 3 6)) := by decide
example : SubstringFilter.filter ⟨[97, 98, 99]⟩ [120, 121, 122, 97, 98, 99, 49, 97, 98, 99] =
    some (FilterResult.Matched (MatchRange.Range 3 6)) := by decide
example : SubstringFilter.filter ⟨[97, 98, 99, 100, 101, 102]⟩ [97, 98, 99] =
    some FilterResult.NoMatch := by decide
example : SubstringFilter.filter ⟨[102, 111, 111]⟩ [102, 111, 111, 255, 98, 97, 114] =
    some (FilterResult.Matched (MatchRange.Range 0 3)) := by decide

/-! ## Claim theorems -/

/-- C1 (counterexample): the claim quantifies over every pattern, but for the
empty pattern the claimed result `Matched(Span(0,0))` (the empty pattern
occurs in `"a"` with lowest start 0) is not returned: the filter panics
(`windows(0)`), returning no result at all. -/
theorem substring_filter_empty_pattern_cex :
    occursAt [] [97] 0 ∧
      ¬ SubstringFilter.filter ⟨[]⟩ [97] =
          some (FilterResult.Matched (MatchRange.Range 0 0)) := by
  decide

/-- C1 (amended): for every non-empty pattern `p` and filename `f`, the
Substring filter returns `Matched(Span(s, s+len p))` iff `p` occurs in `f` as
a contiguous byte run with `s` the lowest occurrence start; it returns
`NoMatch` iff `p` does not occur; in particular `p` longer than `f` gives
`NoMatch`. -/
theorem substring_filter_first_occurrence (p f : List Nat) (hp : p ≠ []) :
    (∀ s e, SubstringFilter.filter ⟨p⟩ f = some (FilterResult.Matched (MatchRange.Range s e)) ↔
        e = s + p.length ∧ occursAt p f s ∧ ∀ t, occursAt p f t → s ≤ t) ∧
    (SubstringFilter.filter ⟨p⟩ f = some FilterResult.NoMatch ↔ ∀ t, ¬ occursAt p f t) ∧
    (f.length < p.length → SubstringFilter.filter ⟨p⟩ f = some FilterResult.NoMatch) := by
  refine ⟨fun s e => SubstringFilter.filter_eq_matched_iff p f hp s e,
    SubstringFilter.filter_eq_noMatch_iff p f hp, ?_⟩
  intro hlen
  refine (SubstringFilter.filter_eq_noMatch_iff p f hp).mpr ?_
  rintro t ⟨hle, -⟩
  omega

/-- C1 (witness): pattern `"bc"` in `"abc"`: applying the theorem to the
computed outcome `Matched(Span(1,3))` recovers the occurrence at offset 1. -/
theorem substring_filter_first_occurrence_witness :
    occursAt [98, 99] [97, 98, 99] 1 ∧
      SubstringFilter.filter ⟨[98, 99]⟩ [97, 98, 99] =
        some (FilterResult.Matched (MatchRange.Range 1 3)) :=
  ⟨((((substring_filter_first_occurrence [98, 99] [97, 98, 99] (by decide)).1 1 3).mp
      (by decide))).2.1,
   by decide⟩

/-- C2: the Substring filter constructed with the empty pattern never returns:
`filename.windows(0)` panics in Rust for every filename, instead of the
claimed total `Matched(Span(0,0))`. -/
theorem substring_filter_empty_pattern_panics (f : List Nat) :
    SubstringFilter.filter ⟨[]⟩ f = Option.none := by
  simp [SubstringFilter.filter]

/-- C3 (counterexample): a directory with mode `0o755` has execute bits set,
the spec predicate (execute bit and regular-file-or-symlink) says false, but
`ExecutableFilter::filter` answers true — it never inspects the file type. -/
theorem executable_filter_directory_cex :
    ExecutableFilter.filter (.ok ⟨stModeOf 0o755 false false⟩) = some true ∧
      specIsRunnable 0o755 false false = false := by
  decide

set_option maxRecDepth 4000 in
/-- C3 (amended): for every permission word and file type (regular, symlink,
or directory), the executable check returns true iff an execute permission
bit is set — the regular-file and symlink flags are ignored. -/
theorem executable_filter_ignores_file_type :
    ∀ perm < 512, ∀ (isRegularFile isSymlink : Bool),
      ExecutableFilter.filter (.ok ⟨stModeOf perm isRegularFile isSymlink⟩) =
        some (specIsRunnable perm true false) := by
  decide

/-- C3 (witness): a directory with mode `0o755` passes the check. -/
theorem executable_filter_ignores_file_type_witness :
    ExecutableFilter.filter (.ok ⟨stModeOf 0o755 false false⟩) =
      some (specIsRunnable 0o755 true false) :=
  executable_filter_ignores_file_type 0o755 (by decide) false false

/-- C8: whenever any filter variant returns `Matched(Span(start, end))`, the
offsets satisfy `start ≤ end ≤ len(name)` (byte offsets into the filename). -/
theorem match_range_offsets_valid (k : FilterKind) (name : List Nat) (s e : Nat)
    (h : k.run name = some (FilterResult.Matched (MatchRange.Range s e))) :
    s ≤ e ∧ e ≤ name.length := by
  cases k with
  | matchAll m =>
    simp [FilterKind.run, MatchAllFilter.filter] at h
  | substring sf =>
    obtain ⟨p⟩ := sf
    by_cases hp : p = []
    · subst hp
      simp [FilterKind.run, SubstringFilter.filter] at h
    · rcases (SubstringFilter.filter_eq_matched_iff p name hp s e).mp h with
        ⟨he, ⟨hocc, -⟩, -⟩
      omega
  | regex rf =>
    simp only [FilterKind.run, Option.some_inj] at h
    unfold RegexFilter.filter at h
    cases hfind : rf.regex.find name with
    | none => rw [hfind] at h; cases h
    | some se =>
      obtain ⟨a, b⟩ := se
      rw [hfind] at h
      obtain ⟨ha, hb⟩ : a = s ∧ b = e := by
        injection h with h1
        injection h1 with h2 h3
        exact ⟨h2, h3⟩
      subst ha; subst hb
      exact rf.regex.find_valid name a b hfind

/-- C8 (witness): the substring variant on pattern `"cd"`, name `"abcd"`
yields `Span(2,4)` with `2 ≤ 4 ≤ 4`. -/
theorem match_range_offsets_valid_witness :
    (FilterKind.substring ⟨[99, 100]⟩).run [97, 98, 99, 100] =
        some (FilterResult.Matched (MatchRange.Range 2 4)) ∧
      2 ≤ 4 ∧ 4 ≤ List.length [97, 98, 99, 100] :=
  ⟨by decide,
   match_range_offsets_valid (FilterKind.substring ⟨[99, 100]⟩) [97, 98, 99, 100] 2 4
     (by decide)⟩

/-- C5: `RegexFilter::filter` returns the leftmost match of the engine as
`Matched(Span(m.start, m.end))` — any engine match starts no earlier — and
`NoMatch` exactly when the pattern matches nowhere in the (possibly
non-UTF-8) filename bytes.  Zero-length matches are not excluded: `s = e` is
permitted throughout (see the witness). -/
theorem regex_filter_leftmost_first (rf : RegexFilter) (name : List Nat) :
    (∀ s e, rf.filter name = FilterResult.Matched (MatchRange.Range s e) →
        rf.regex.Matches name s e ∧ (∀ t u, rf.regex.Matches name t u → s ≤ t) ∧
          s ≤ e ∧ e ≤ name.length) ∧
    (rf.filter name = FilterResult.NoMatch → ∀ t u, ¬ rf.regex.Matches name t u) := by
  constructor
  · intro s e h
    unfold RegexFilter.filter at h
    cases hfind : rf.regex.find name with
    | none => rw [hfind] at h; cases h
    | some se =>
      obtain ⟨a, b⟩ := se
      rw [hfind] at h
      obtain ⟨ha, hb⟩ : a = s ∧ b = e := by
        injection h with h1
        injection h1 with h2 h3
        exact ⟨h2, h3⟩
      subst ha; subst hb
      exact ⟨rf.regex.find_sound name a b hfind,
        rf.regex.find_leftmost name a b hfind,
        rf.regex.find_valid name a b hfind⟩
  · intro h
    unfold RegexFilter.filter at h
    cases hfind : rf.regex.find name with
    | none => exact rf.regex.find_complete name hfind
    | some se => obtain ⟨a, b⟩ := se; rw [hfind] at h; cases h

/-- An engine for a pattern that matches the empty string at every position
(e.g. `a*` over a haystack without `a`): `find` reports the zero-length
leftmost match `(0, 0)`. -/
def emptyPatternRegex : ByteRegex where
  Matches name s e := s ≤ name.length ∧ e = s
  find _ := some (0, 0)
  find_sound := by
    intro name s e h
    obtain ⟨hs, he⟩ : 0 = s ∧ 0 = e := by
      injection h with h1
      injection h1 with h2 h3
      exact ⟨h2, h3⟩
    subst hs; subst he
    exact ⟨Nat.zero_le _, rfl⟩
  find_valid := by
    intro name s e h
    obtain ⟨hs, he⟩ : 0 = s ∧ 0 = e := by
      injection h with h1
      injection h1 with h2 h3
      exact ⟨h2, h3⟩
    subst hs; subst he
    exact ⟨Nat.le_refl 0, Nat.zero_le _⟩
  find_leftmost := by
    intro name s e h t u hm
    obtain ⟨hs, -⟩ : 0 = s ∧ 0 = e := by
      injection h with h1
      injection h1 with h2 h3
      exact ⟨h2, h3⟩
    subst hs
    exact Nat.zero_le t
  find_complete := by
    intro name h
    cases h

/-- C5 (witness): on `"bbb"` the empty-matching engine reports the
zero-length span `Span(0,0)` and the theorem recovers the engine match. -/
theorem regex_filter_leftmost_first_witness :
    RegexFilter.filter ⟨emptyPatternRegex⟩ [98, 98, 98] =
        FilterResult.Matched (MatchRange.Range 0 0) ∧
      emptyPatternRegex.Matches [98, 98, 98] 0 0 :=
  ⟨rfl, ((regex_filter_leftmost_first ⟨emptyPatternRegex⟩ [98, 98, 98]).1 0 0 rfl).1⟩

/-- C6: with no ranking (the program defines none), emitted matches respect
directory-list priority order: the match list of a scan is the concatenation,
in directory-list order, of the per-directory match lists, and each
directory's matches appear in the order the listing yields its entries (an
order-preserving `filterMap` of the listing). -/
theorem scan_priority_order (flt : List Nat → FilterResult) :
    (∀ dirs : List (String × Option (List DirEntryResult)),
        (scanDirs flt dirs).1 =
          (dirs.map (fun d =>
            match d.2 with
            | some es => (scanEntries flt d.1 es).1
            | Option.none => [])).flatten) ∧
    (∀ dir es, (scanEntries flt dir es).1 = es.filterMap (entryMatch flt dir)) := by
  constructor
  · intro dirs
    induction dirs with
    | nil => rfl
    | cons d rest ih =>
      obtain ⟨dir, o⟩ := d
      cases o with
      | none => simpa [scanDirs] using ih
      | some es => simp [scanDirs, ih]
  · intro dir es
    induction es with
    | nil => rfl
    | cons x rest ih =>
      cases x with
      | error e2 => simp [scanEntries, entryMatch, ih]
      | ok name =>
        cases hm : flt name with
        | Matched mr => simp [scanEntries, entryMatch, hm, ih]
        | NoMatch => simp [scanEntries, entryMatch, hm, ih]

/-- C4 (counterexample): when a directory entry cannot be read, the
diagnostic does not name the entry: it is
`Failed to get directory entry in '<dir>': <err>`, fully determined by the
directory and the error text — scans differing only in the neighbouring
entry produce the identical diagnostic. -/
theorem scan_entry_diag_directory_cex :
    (scanEntries (MatchAllFilter.filter {}) "/opt"
        [.error "permission denied", .ok [97]]).2 =
      ["Failed to get directory entry in \x27/opt\x27: permission denied"] ∧
    (scanEntries (MatchAllFilter.filter {}) "/opt"
        [.error "permission denied", .ok [97]]).2 =
      (scanEntries (MatchAllFilter.filter {}) "/opt"
        [.error "permission denied", .ok [122]]).2 := by
  constructor
  · rfl
  · rfl

/-- C4 (amended): a failing directory entry contributes exactly one
diagnostic — naming the containing directory and the error, not the entry —
to the error channel, yields no match, and the surrounding entries are
processed exactly as if it were absent: the failure is never fatal (the scan
function is total). -/
theorem scan_entry_error_skip_continue (flt : List Nat → FilterResult) (dir e : String)
    (pre post : List DirEntryResult) :
    scanEntries flt dir (pre ++ .error e :: post) =
      ((scanEntries flt dir pre).1 ++ (scanEntries flt dir post).1,
       (scanEntries flt dir pre).2 ++ entryDiag dir e :: (scanEntries flt dir post).2) := by
  induction pre with
  | nil => simp [scanEntries]
  | cons x rest ih =>
    cases x with
    | error e2 => simp [scanEntries, ih]
    | ok name =>
      cases hm : flt name with
      | Matched mr => simp [scanEntries, hm, ih]
      | NoMatch => simp [scanEntries, hm, ih]

/-- C7 (counterexample): for an out-of-bounds span the renderer does not
produce `directory + separator + filename + newline`: Rust byte-slice
indexing panics (`Span(2,1)` on a 2-byte name), so no output is produced. -/
theorem render_no_color_invalid_span_cex :
    FormattedOutput.print false [100] [97, 98] (MatchRange.Range 2 1) = Option.none ∧
      ¬ FormattedOutput.print false [100] [97, 98] (MatchRange.Range 2 1) =
          some ([100] ++ [47] ++ [97, 98] ++ [10]) := by
  decide

/-- C7 (amended): with color disabled and a range that fits the filename
(`NoHighlight`, or a span with `start ≤ end ≤ len`), the rendered line is
exactly `directory + separator + filename + newline`, byte for byte. -/
theorem render_no_color_verbatim (dir file : List Nat) (r : MatchRange)
    (h : validRange r file) :
    FormattedOutput.print false dir file r = some (dir ++ [47] ++ file ++ [10]) := by
  cases r with
  | None =>
    simp [FormattedOutput.print, lineHead, lineEnd, dirAnsi, resetAnsi]
  | Range s e =>
    obtain ⟨hse, hef⟩ := h
    simp only [FormattedOutput.print]
    rw [if_pos (And.intro hse hef)]
    simp only [lineHead, lineEnd, dirAnsi, matchAnsi, resetAnsi, if_neg Bool.false_ne_true,
      List.nil_append, List.append_nil]
    rw [take_slice_drop file s e hse hef]

/-- C7 (witness): directory `"d"`, filename `"ab"`, span `Span(0,1)` renders
as `d/ab` plus newline. -/
theorem render_no_color_verbatim_witness :
    FormattedOutput.print false [100] [97, 98] (MatchRange.Range 0 1) =
      some ([100] ++ [47] ++ [97, 98] ++ [10]) :=
  render_no_color_verbatim [100] [97, 98] (MatchRange.Range 0 1)
    (by constructor <;> decide)

/-- C10: the renderer writes the filename bytes verbatim, with no
sanitization or escaping: for either color setting the output line is a
fixed head, the untouched filename bytes, and a fixed tail; in particular the
filename `file\x1B[31mred`, which embeds an ANSI escape sequence, is emitted
unchanged (the scenario of the `print_filename_with_ansi_escape_in_name`
test). -/
theorem render_filename_unsanitized :
    (∀ (color : Bool) (dir file : List Nat),
        FormattedOutput.print color dir file MatchRange.None =
          some (lineHead color dir ++ file ++ lineEnd color)) ∧
    FormattedOutput.print false [47, 116, 109, 112]
        [102, 105, 108, 101, 27, 91, 51, 49, 109, 114, 101, 100] MatchRange.None =
      some [47, 116, 109, 112, 47, 102, 105, 108, 101, 27, 91, 51, 49, 109, 114,
        101, 100, 10] :=
  ⟨fun _ _ _ => rfl, by decide⟩

/-- C9 (counterexample): `--color bogus` makes the process exit non-zero,
yet none of the claim's enumerated setup failures (no directories resolved,
invalid regex pattern, conflicting mode flags) holds on that input — the
failure is an argument-parse error, which the claim does not list. -/
theorem exit_status_parse_error_cex :
    mainModel ["--color", "bogus"] "/bin" (fun _ => .error "x") (fun _ => Option.none) =
        some (1, [],
          ["Error: Invalid color option \x27bogus\x27. Use \x27auto\x27, \x27always\x27, or \x27never\x27", ""]) ∧
      ¬ claimedSetupFailure ["--color", "bogus"] "/bin" (fun _ => .error "x") := by
  constructor
  · rfl
  · intro h
    rcases h with h | h | h
    · exact absurd h (by decide)
    · have hp : parseManualLoop ["--color", "bogus"] Option.none false ColorOption.Auto =
          ParseOutcome.err
            "Invalid color option \x27bogus\x27. Use \x27auto\x27, \x27always\x27, or \x27never\x27" := by
        decide
      rw [hp] at h
      exact h
    · exact h

/-- C9 (amended): a completed run (no panic) exits non-zero exactly when
setup fails, where the setup failures the code defines are argument-parse
errors and an uncompilable regex pattern (the no-directories check never
fires because splitting a set `PATH` always yields at least one entry, and
no conflicting mode flags exist); on setup failure nothing is scanned and a
diagnostic is on the error stream, otherwise the exit code is zero even with
zero matches. -/
theorem exit_status_setup_failure (argv : List String) (pathVar : String)
    (compile : String → Except String ByteRegex)
    (fs : String → Option (List DirEntryResult))
    (code : Nat) (ms : List MatchedEntry) (ds : List String)
    (h : mainModel argv pathVar compile fs = some (code, ms, ds)) :
    (code ≠ 0 ↔ setupFails argv compile) ∧
      (setupFails argv compile → ms = [] ∧ ds ≠ []) := by
  have hdirs : ¬ (splitPaths pathVar).isEmpty = true := by
    rcases hsp : splitPaths pathVar with - | ⟨d, rest⟩
    · exact absurd hsp (splitPaths_ne_nil pathVar)
    · simp [List.isEmpty]
  cases hparse : parseManualLoop argv Option.none false ColorOption.Auto with
  | err e =>
    simp only [mainModel, hparse] at h
    simp only [setupFails, hparse]
    obtain ⟨hc, hm, hd⟩ : 1 = code ∧ [] = ms ∧ ["Error: " ++ e, ""] = ds := by
      injection h with h1
      injection h1 with h2 h3
      injection h3 with h4 h5
      exact ⟨h2, h4, h5⟩
    subst hc; subst hm; subst hd
    exact ⟨by simp, fun _ => ⟨rfl, by simp⟩⟩
  | helpExit =>
    simp only [mainModel, hparse] at h
    simp only [setupFails, hparse]
    obtain ⟨hc, -, -⟩ : 0 = code ∧ [] = ms ∧ [] = ds := by
      injection h with h1
      injection h1 with h2 h3
      injection h3 with h4 h5
      exact ⟨h2, h4, h5⟩
    subst hc
    exact ⟨by simp, fun hf => hf.elim⟩
  | versionExit =>
    simp only [mainModel, hparse] at h
    simp only [setupFails, hparse]
    obtain ⟨hc, -, -⟩ : 0 = code ∧ [] = ms ∧ [] = ds := by
      injection h with h1
      injection h1 with h2 h3
      injection h3 with h4 h5
      exact ⟨h2, h4, h5⟩
    subst hc
    exact ⟨by simp, fun hf => hf.elim⟩
  | ok args =>
    simp only [mainModel, hparse] at h
    simp only [setupFails, hparse]
    rw [if_neg hdirs] at h
    cases hpat : args.pattern with
    | none =>
      simp only [hpat] at h
      obtain ⟨hc, -, -⟩ :
          0 = code ∧ (scanDirs (MatchAllFilter.filter {})
                ((splitPaths pathVar).map (fun d => (d, fs d)))).1 = ms ∧
            (scanDirs (MatchAllFilter.filter {})
                ((splitPaths pathVar).map (fun d => (d, fs d)))).2 = ds := by
        injection h with h1
        injection h1 with h2 h3
        injection h3 with h4 h5
        exact ⟨h2, h4, h5⟩
      subst hc
      constructor
      · simp only [ne_eq, not_true_eq_false, false_iff]
        rintro ⟨p, msg, hp, -, -⟩
        exact Option.noConfusion hp
      · rintro ⟨p, msg, hp, -, -⟩
        exact Option.noConfusion hp
    | some p =>
      cases hrx : args.regex with
      | true =>
        simp only [hpat, hrx] at h
        cases hcomp : compile p with
        | error msg =>
          simp only [hcomp] at h
          obtain ⟨hc, hm, hd⟩ :
              1 = code ∧ [] = ms ∧
                ["Invalid regex pattern \x27" ++ p ++ "\x27: " ++ msg] = ds := by
            injection h with h1
            injection h1 with h2 h3
            injection h3 with h4 h5
            exact ⟨h2, h4, h5⟩
          subst hc; subst hm; subst hd
          refine ⟨?_, fun _ => ⟨rfl, by simp⟩⟩
          simp only [ne_eq, one_ne_zero, not_false_eq_true, true_iff]
          exact ⟨p, msg, rfl, by trivial, hcomp⟩
        | ok re =>
          simp only [hcomp] at h
          obtain ⟨hc, -, -⟩ :
              0 = code ∧ (scanDirs (RegexFilter.filter ⟨re⟩)
                    ((splitPaths pathVar).map (fun d => (d, fs d)))).1 = ms ∧
                (scanDirs (RegexFilter.filter ⟨re⟩)
                    ((splitPaths pathVar).map (fun d => (d, fs d)))).2 = ds := by
            injection h with h1
            injection h1 with h2 h3
            injection h3 with h4 h5
            exact ⟨h2, h4, h5⟩
          subst hc
          have hnf : ¬ ∃ q msg, some p = some q ∧ true = true ∧
              compile q = .error msg := by
            rintro ⟨q, msg, hq, -, hcq⟩
            injection hq with hq2
            subst hq2
            rw [hcomp] at hcq
            cases hcq
          exact ⟨by simpa using hnf, fun hf => absurd hf hnf⟩
      | false =>
        simp only [hpat, hrx] at h
        by_cases hps : p = ""
        · rw [if_pos hps] at h
          cases h
        · rw [if_neg hps] at h
          obtain ⟨hc, -, -⟩ :
              0 = code ∧ (scanDirs (substringTotal (strBytes p))
                    ((splitPaths pathVar).map (fun d => (d, fs d)))).1 = ms ∧
                (scanDirs (substringTotal (strBytes p))
                    ((splitPaths pathVar).map (fun d => (d, fs d)))).2 = ds := by
            injection h with h1
            injection h1 with h2 h3
            injection h3 with h4 h5
            exact ⟨h2, h4, h5⟩
          subst hc
          have hnf : ¬ ∃ q msg, some p = some q ∧ false = true ∧
              compile q = .error msg := by
            rintro ⟨q, msg, -, hrq, -⟩
            cases hrq
          exact ⟨by simp, fun hf => absurd hf hnf⟩

/-- C9 (witness): pattern `"zz"` over `PATH=/bin` containing only `a`
completes with exit code 0, no matches, and no setup failure. -/
theorem exit_status_setup_failure_witness :
    ((0 : Nat) ≠ 0 ↔ setupFails ["zz"] (fun _ => .error "x")) ∧
      (setupFails ["zz"] (fun _ => .error "x") →
        ([] : List MatchedEntry) = [] ∧ ([] : List String) ≠ []) :=
  exit_status_setup_failure ["zz"] "/bin" (fun _ => .error "x")
    (fun _ => some [Except.ok [97]]) 0 [] [] (by decide)

end Pathsearch
